import Mathlib

/-!
Verification of the claude-devtools Context Registry / Live-Sync subsystem and
its metadata/rendering utilities, as a shallow embedding of the TypeScript
sources (src/main/ipc/context.ts, the main-process part of src/renderer/App.tsx,
src/main/utils/metadataExtraction.ts, and the RankedInjectionList component).
Code that lives outside the provided sources (the ServiceContextRegistry
implementation) is modelled from the specification and marked as such.
-/

namespace ClaudeDevtools

/-! ## JavaScript string primitives

JavaScript strings are embedded as Lean strings; the string operations the
sources use (trim, startsWith, substring, join) are embedded as operations on
the underlying character list so they evaluate by kernel reduction. -/

/-- Whitespace test backing the embedding of String.prototype.trim. -/
def jsIsWs (c : Char) : Bool :=
  c = ' ' || c = '\t' || c = '\n' || c = '\r'

/-- Embedding of JavaScript String.prototype.trim on a character list. -/
def jsTrimL (l : List Char) : List Char :=
  ((l.dropWhile jsIsWs).reverse.dropWhile jsIsWs).reverse

/-- Embedding of JavaScript String.prototype.trim. -/
def jsTrim (s : String) : String :=
  ⟨jsTrimL s.data⟩

/-- Does the pattern (first argument) occur at the head of the text? -/
def jsStartsWithL : List Char → List Char → Bool
  | [], _ => true
  | _ :: _, [] => false
  | p :: ps, c :: cs => p = c && jsStartsWithL ps cs

/-- Embedding of JavaScript s.startsWith(pat). -/
def jsStartsWith (s pat : String) : Bool :=
  jsStartsWithL pat.data s.data

/-- Embedding of JavaScript s.substring(0, n). -/
def jsSubstringTo (s : String) (n : Nat) : String :=
  ⟨s.data.take n⟩

/-- Character length of a string (JavaScript s.length in the embedding). -/
def jsLen (s : String) : Nat :=
  s.data.length

/-- Embedding of JavaScript Array.prototype.join(sep). -/
def jsJoin (sep : String) : List String → String
  | [] => ""
  | [s] => s
  | s :: rest => s ++ sep ++ jsJoin sep rest

/-! ## Metadata extraction (src/main/utils/metadataExtraction.ts)

The JSONL file is embedded as a list of line strings.  JSON parsing itself is
external library code (JSON.parse); its result on a line of a session file is
embedded as an abstract function into the parsed-entry shape the source
inspects.  The helpers isCommandOutputContent and sanitizeDisplayContent come
from the shared contentSanitizer module (outside the provided sources) and are
likewise parameters. -/

/-- One block of a message content array; the source only distinguishes text
blocks (isTextContent) from everything else. -/
inductive ContentBlock
  | text (s : String)
  | other
deriving DecidableEq

/-- Embedding of the isTextContent type guard. -/
def isTextContent : ContentBlock → Bool
  | .text _ => true
  | .other => false

/-- The text field of a text block (only applied after the isTextContent filter). -/
def blockText : ContentBlock → String
  | .text s => s
  | .other => ""

/-- A user message content value: string, or array of content blocks. -/
inductive JsContent
  | str (s : String)
  | arr (blocks : List ContentBlock)
deriving DecidableEq

/-- The message object of a user entry. -/
structure JsMessage where
  content : JsContent
deriving DecidableEq

/-- A parsed user entry: optional timestamp and optional message object. -/
structure UserEntry where
  timestamp : Option String
  message : Option JsMessage
deriving DecidableEq

/-- The parse result of a line, as far as the source inspects it: a user entry;
any other successfully parsed value on which the type-property access is
harmless (objects without type user, and auto-boxed primitives such as
numbers or strings, whose property access yields undefined); or a parsed
JSON null, on which the unguarded property access entry.type itself throws a
TypeError — only JSON.parse sits inside the per-line try/catch, so that
TypeError escapes to the outer catch, which rethrows it. -/
inductive ParsedEntry
  | user (e : UserEntry)
  | nonUser
  | nullish
deriving DecidableEq

/-- The internal MessagePreview record of metadataExtraction.ts. -/
structure MessagePreview where
  text : String
  timestamp : String
  isCommand : Bool
deriving DecidableEq

/-- The public preview result ({ text, timestamp }). -/
structure PreviewResult where
  text : String
  timestamp : String
deriving DecidableEq

/-- The opening literal of the command-name regex. -/
def cmdOpen : List Char := "<command-name>/".data

/-- The closing literal of the command-name regex. -/
def cmdClose : List Char := "</command-name>".data

/-- Leftmost match of the regex for command names: find the first position where
the literal opening tag is followed by a nonempty run of characters other
than the angle opener and then the literal closing tag; return that run. -/
def findCommandCapture : List Char → Option (List Char)
  | [] => none
  | c :: cs =>
    if jsStartsWithL cmdOpen (c :: cs) then
      let rest := (c :: cs).drop cmdOpen.length
      let cap := rest.takeWhile (fun ch => ch ≠ '<')
      if cap ≠ [] && jsStartsWithL cmdClose (rest.drop cap.length) then
        some cap
      else
        findCommandCapture cs
    else
      findCommandCapture cs

/-- Embedding of extractCommandName: slash-command label from the first regex
match, with the fallback label when no match exists. -/
def extractCommandName (content : String) : String :=
  match findCommandCapture content.data with
  | some cap => ⟨'/' :: cap⟩
  | none => "/command"

/-- Embedding of extractPreviewFromUserEntry.  isCmdOut and sanitize embed the
external isCommandOutputContent and sanitizeDisplayContent helpers; nowIso
embeds the current-time ISO string used when the entry has no timestamp. -/
def extractPreviewFromUserEntry (isCmdOut : String → Bool) (sanitize : String → String)
    (nowIso : String) (entry : UserEntry) : Option MessagePreview :=
  let timestamp := entry.timestamp.getD nowIso
  match entry.message with
  | none => none
  | some message =>
    match message.content with
    | .str content =>
      if isCmdOut content || jsStartsWith content "[Request interrupted by user" then
        none
      else if jsStartsWith content "<command-name>" then
        some { text := extractCommandName content, timestamp := timestamp, isCommand := true }
      else
        let sanitized := jsTrim (sanitize content)
        if sanitized = "" then none
        else some { text := jsSubstringTo sanitized 500, timestamp := timestamp, isCommand := false }
    | .arr content =>
      let textContent :=
        jsTrim (jsJoin " " ((content.filter isTextContent).map blockText))
      if textContent = "" || jsStartsWith textContent "[Request interrupted by user" then
        none
      else if jsStartsWith textContent "<command-name>" then
        some { text := extractCommandName textContent, timestamp := timestamp, isCommand := true }
      else
        let sanitized := jsTrim (sanitize textContent)
        if sanitized = "" then none
        else some { text := jsSubstringTo sanitized 500, timestamp := timestamp, isCommand := false }

/-- The line loop of extractFirstUserMessagePreview: linesRead counts processed
lines and the loop exits once it reaches safeMaxLines; blank lines and lines
whose parse fails are skipped (but consume budget); a line parsing to JSON null
makes the unguarded entry.type access throw, and the function's outer catch
logs and rethrows, so the whole call faults (the Except error case); the first
non-command user preview is returned at once; the first command preview is
remembered as the fallback returned when the loop ends. -/
def previewLoop (parse : String → Option ParsedEntry) (isCmdOut : String → Bool)
    (sanitize : String → String) (nowIso : String) :
    List String → Int → Int → Option PreviewResult → Except Unit (Option PreviewResult)
  | [], _, _, fallback => .ok fallback
  | line :: rest, linesRead, safeMaxLines, fallback =>
    if linesRead ≥ safeMaxLines then .ok fallback
    else
      let trimmed := jsTrim line
      if trimmed = "" then
        previewLoop parse isCmdOut sanitize nowIso rest (linesRead + 1) safeMaxLines fallback
      else
        match parse trimmed with
        | none =>
          previewLoop parse isCmdOut sanitize nowIso rest (linesRead + 1) safeMaxLines fallback
        | some .nullish => .error ()
        | some .nonUser =>
          previewLoop parse isCmdOut sanitize nowIso rest (linesRead + 1) safeMaxLines fallback
        | some (.user e) =>
          match extractPreviewFromUserEntry isCmdOut sanitize nowIso e with
          | none =>
            previewLoop parse isCmdOut sanitize nowIso rest (linesRead + 1) safeMaxLines fallback
          | some p =>
            if !p.isCommand then
              .ok (some ⟨p.text, p.timestamp⟩)
            else
              previewLoop parse isCmdOut sanitize nowIso rest (linesRead + 1) safeMaxLines
                (if fallback.isNone then some ⟨p.text, p.timestamp⟩ else fallback)

/-- Embedding of extractFirstUserMessagePreview: clamp maxLines to at least one
and run the line loop over the file's lines; the error case is the TypeError a
JSON-null line raises, rethrown by the function's own catch. -/
def extractFirstUserMessagePreview (parse : String → Option ParsedEntry)
    (isCmdOut : String → Bool) (sanitize : String → String) (nowIso : String)
    (lines : List String) (maxLines : Int) : Except Unit (Option PreviewResult) :=
  let safeMaxLines := max 1 maxLines
  previewLoop parse isCmdOut sanitize nowIso lines 0 safeMaxLines none

/-- The preview a single line contributes: nothing when the trimmed line is
empty, fails to parse, or is not a user entry with a usable preview (a crashing
JSON-null line contributes no preview either). -/
def linePreview (parse : String → Option ParsedEntry) (isCmdOut : String → Bool)
    (sanitize : String → String) (nowIso : String) (line : String) :
    Option MessagePreview :=
  let trimmed := jsTrim line
  if trimmed = "" then none
  else
    match parse trimmed with
    | some (.user e) => extractPreviewFromUserEntry isCmdOut sanitize nowIso e
    | _ => none

/-- All previews contributed by a list of lines, in order. -/
def previewsOf (parse : String → Option ParsedEntry) (isCmdOut : String → Bool)
    (sanitize : String → String) (nowIso : String) (lines : List String) :
    List MessagePreview :=
  lines.filterMap (linePreview parse isCmdOut sanitize nowIso)

/-- The event a single line contributes to the scan: nothing for a skipped line
(blank, unparsable, non-user, or unusable preview), a fault for a JSON-null
line, or a preview. -/
def lineEvent (parse : String → Option ParsedEntry) (isCmdOut : String → Bool)
    (sanitize : String → String) (nowIso : String) (line : String) :
    Option (Except Unit MessagePreview) :=
  let trimmed := jsTrim line
  if trimmed = "" then none
  else
    match parse trimmed with
    | none => none
    | some .nonUser => none
    | some .nullish => some (.error ())
    | some (.user e) =>
      match extractPreviewFromUserEntry isCmdOut sanitize nowIso e with
      | none => none
      | some p => some (.ok p)

/-- All events contributed by a list of lines, in order. -/
def eventsOf (parse : String → Option ParsedEntry) (isCmdOut : String → Bool)
    (sanitize : String → String) (nowIso : String) (lines : List String) :
    List (Except Unit MessagePreview) :=
  lines.filterMap (lineEvent parse isCmdOut sanitize nowIso)

/-- An event that ends the scan on the spot: a fault, or a non-command
preview. -/
def decisiveEvent : Except Unit MessagePreview → Bool
  | .error _ => true
  | .ok p => !p.isCommand

/-- The previews among a list of events. -/
def eventPreviews (evs : List (Except Unit MessagePreview)) : List MessagePreview :=
  evs.filterMap (fun ev => match ev with | .ok p => some p | .error _ => none)

/-- Specification-side reading of the extraction: the first decisive event
decides — a fault line makes the call throw, a non-command preview is returned,
and with no decisive event the earliest preview (necessarily a command) is
returned, or null with no preview at all. -/
def previewSpecE (evs : List (Except Unit MessagePreview)) :
    Except Unit (Option PreviewResult) :=
  match evs.find? decisiveEvent with
  | some (.error _) => .error ()
  | some (.ok p) => .ok (some ⟨p.text, p.timestamp⟩)
  | none =>
    .ok ((eventPreviews evs).head?.map (fun p => (⟨p.text, p.timestamp⟩ : PreviewResult)))

/-! ## extractCwd (src/main/utils/metadataExtraction.ts)

For extractCwd only the class of each line is observable: blank after trim,
parse failure of JSON.parse on the raw line (including values on which the
subsequent property-existence test itself throws), or a parsed entry with the
cwd field absent, or present with a string value. -/

/-- Observable class of one line of the session file for the cwd scan. -/
inductive SessionLine
  | blank
  | malformed
  | entry (cwd : Option String)
deriving DecidableEq

/-- The scanning loop of extractCwd, with the parse fault reified: a malformed
line makes JSON.parse throw out of the loop (the source does not guard the
parse per line); an entry is accepted only when its cwd field is present and
truthy (a nonempty string). -/
def extractCwdLoop : List SessionLine → Except Unit (Option String)
  | [] => .ok none
  | .blank :: rest => extractCwdLoop rest
  | .malformed :: _ => .error ()
  | .entry cwd :: rest =>
    match cwd with
    | some c => if c ≠ "" then .ok (some c) else extractCwdLoop rest
    | none => extractCwdLoop rest

/-- Embedding of extractCwd: the file argument is none when the provider's
existence check fails; the try/catch around the loop converts a parse fault
into the null result, so the function itself never throws. -/
def extractCwd : Option (List SessionLine) → Option String
  | none => none
  | some lines =>
    match extractCwdLoop lines with
    | .ok r => r
    | .error _ => none

/-- Does this line stop the cwd scan (either by throwing or by producing the
result)? -/
def cwdStopper : SessionLine → Bool
  | .malformed => true
  | .entry (some c) => c ≠ ""
  | _ => false

/-- Result the scan produces at its first stopping line. -/
def cwdStopResult : Option SessionLine → Option String
  | some (.entry (some c)) => some c
  | _ => none

/-! ## RankedInjectionList (renderer component)

The component's render order is determined entirely by the sorted copy of the
injections prop; only the identity and the estimatedTokens key of an injection
matter for the sort. -/

/-- A context injection as far as the ranking is concerned. -/
structure ContextInjection where
  id : Nat
  estimatedTokens : Int
deriving DecidableEq

/-- The sort comparator (a, b) => b.estimatedTokens - a.estimatedTokens asks the
engine to place a before b exactly when the difference is nonpositive, i.e.
when b's estimate does not exceed a's. -/
def injectionLe (a b : ContextInjection) : Bool :=
  decide (b.estimatedTokens ≤ a.estimatedTokens)

/-- Embedding of the component's useMemo body: the spread copies the prop array
and the stable in-place sort runs on that copy with the descending-token
comparator.  The first component is the render order; the second is the
caller's array as the component leaves it. -/
def rankedRender (injections : List ContextInjection) :
    List ContextInjection × List ContextInjection :=
  let copy := injections
  (List.mergeSort copy injectionLe, injections)

/-! ## Context registry and live-sync subsystem

From the provided sources: the IPC boundary handlers (src/main/ipc/context.ts)
and the main-process wiring, startup, and SSH-status forwarding
(src/renderer/App.tsx, main part).  The ServiceContextRegistry implementation
itself lives in src/main/services, which is not among the provided sources, so
its state and its switch operation are modelled from the specification. -/

/-- Kind of an execution context. -/
inductive CtxType
  | localCtx
  | remoteCtx
deriving DecidableEq

/-- Connection Manager status for a remote target. -/
inductive ConnStatus
  | disconnected
  | connecting
  | connected
  | connError (reason : String)
deriving DecidableEq

/-- An execution context as the registry and the wiring observe it. -/
structure Ctx where
  id : String
  type : CtxType
deriving DecidableEq

/-- Modelled from the spec: the ServiceContextRegistry state (src/main/services,
absent from the provided sources) — the id-keyed collection of contexts and the
single active id. -/
structure Registry where
  contexts : List Ctx
  activeId : String
deriving DecidableEq

/-- Registry-level switch failures of the specification's error taxonomy. -/
inductive SwitchError
  | contextNotFound (id : String)
  | connectionFailed (reason : String)
deriving DecidableEq

/-- The message carried by a registry-level error (the boundary layer only
forwards it, so its exact text is free in the model). -/
def errMessage : SwitchError → String
  | .contextNotFound id => "Context not found: " ++ id
  | .connectionFailed r => "Connection failed: " ++ r

/-- Modelled from the spec: ServiceContextRegistry.switch (src/main/services,
absent from the provided sources).  Steps per the specification: unknown target
fails with the not-found error; a target equal to the active id succeeds as a
no-op; a remote target whose connection is not connected triggers a single
connect attempt and fails with a connection error (state unchanged) when that
attempt fails; otherwise the active id is atomically set to the target.
connStatus is the Connection Manager's current status for the target and
connectResult the outcome of the single connect attempt; the returned context
is the current (newly active) one, which is all the caller consumes. -/
def Registry.switchContext (reg : Registry) (targetId : String)
    (connStatus : ConnStatus) (connectResult : Except String Unit) :
    Except SwitchError (Registry × Ctx) :=
  match reg.contexts.find? (fun c => c.id = targetId) with
  | none => .error (.contextNotFound targetId)
  | some target =>
    if targetId = reg.activeId then
      .ok (reg, target)
    else if target.type = .remoteCtx && connStatus ≠ .connected then
      match connectResult with
      | .ok _ => .ok ({ reg with activeId := targetId }, target)
      | .error reason => .error (.connectionFailed reason)
    else
      .ok ({ reg with activeId := targetId }, target)

/-! ### Event rewiring (wireFileWatcherEvents in the main part of App.tsx)

The module-level state is the pair of cleanup closures; the listener lists
record which contexts currently have our forwarding handlers attached, i.e.
which contexts can deliver into the shared notification sink. -/

/-- One primitive step of a rewiring pass. -/
inductive WireOp
  | offFile (ctxId : String)
  | offTodo (ctxId : String)
  | onFile (ctxId : String)
  | onTodo (ctxId : String)
deriving DecidableEq

/-- Main-process wiring state: which contexts have a forwarding file-change /
todo-change listener attached, and the stored cleanup closures (identified by
the context they detach). -/
structure WiringState where
  fileListeners : List String
  todoListeners : List String
  fileCleanup : Option String
  todoCleanup : Option String
deriving DecidableEq

/-- Effect of one rewiring step on the wiring state: a cleanup call removes
that context's handler and nulls the stored closure; an attach appends the
handler and stores the new closure. -/
def applyWireOp (st : WiringState) : WireOp → WiringState
  | .offFile c =>
    { st with fileListeners := st.fileListeners.erase c, fileCleanup := none }
  | .offTodo c =>
    { st with todoListeners := st.todoListeners.erase c, todoCleanup := none }
  | .onFile c =>
    { st with fileListeners := st.fileListeners ++ [c], fileCleanup := some c }
  | .onTodo c =>
    { st with todoListeners := st.todoListeners ++ [c], todoCleanup := some c }

/-- The step sequence of wireFileWatcherEvents for a target context: run the
stored file cleanup if any, then the stored todo cleanup if any, then attach
the file-change and todo-change handlers of the target. -/
def wireOps (st : WiringState) (ctxId : String) : List WireOp :=
  (match st.fileCleanup with | some c => [.offFile c] | none => []) ++
  (match st.todoCleanup with | some c => [.offTodo c] | none => []) ++
  [.onFile ctxId, .onTodo ctxId]

/-- Embedding of wireFileWatcherEvents: execute the rewiring steps in order. -/
def wireFileWatcherEvents (st : WiringState) (ctxId : String) : WiringState :=
  (wireOps st ctxId).foldl applyWireOp st

/-- Contexts with at least one listener attached to the shared sink. -/
def attachedCtxs (st : WiringState) : List String :=
  st.fileListeners ++ st.todoListeners

/-- All attached listeners belong to a single context. -/
def oneContext (st : WiringState) : Prop :=
  ∀ a ∈ attachedCtxs st, ∀ b ∈ attachedCtxs st, a = b

/-- The wiring states the source actually reaches between rewiring passes:
the listeners are exactly the ones the stored cleanups can detach, and both
cleanups, when present, belong to the same context. -/
def WiringState.WellFormed (st : WiringState) : Prop :=
  st.fileListeners = st.fileCleanup.toList ∧
  st.todoListeners = st.todoCleanup.toList ∧
  ∀ a ∈ st.fileCleanup, ∀ b ∈ st.todoCleanup, a = b

/-! ### IPC boundary (src/main/ipc/context.ts) -/

/-- Combined main-process state the handlers touch. -/
structure MainState where
  registry : Registry
  wiring : WiringState
deriving DecidableEq

/-- The data payloads of the three context channels. -/
inductive IpcData
  | listData (contexts : List Ctx)
  | activeData (id : String)
  | switchData (contextId : String)
deriving DecidableEq

/-- The uniform success/failure envelope the boundary layer returns. -/
structure IpcResponse where
  success : Bool
  data : Option IpcData
  error : Option String
deriving DecidableEq

/-- The try/catch pattern shared by the three handlers: a successful registry
action is wrapped in the success envelope, a thrown registry-level error is
caught and returned as the failure envelope with its message. -/
def tryHandle {α : Type} (action : Except String α) (mk : α → IpcData) : IpcResponse :=
  match action with
  | .ok v => { success := true, data := some (mk v), error := none }
  | .error msg => { success := false, data := none, error := some msg }

/-- Modelled from the spec: ServiceContextRegistry.list (src/main/services,
absent from the provided sources) — a side-effect-free snapshot of the
registered contexts; it has no failure case. -/
def Registry.listOp (reg : Registry) : Except String (List Ctx) :=
  .ok reg.contexts

/-- Modelled from the spec: ServiceContextRegistry.getActiveContextId
(src/main/services, absent from the provided sources) — returns the active id;
it has no failure case. -/
def Registry.getActiveOp (reg : Registry) : Except String String :=
  .ok reg.activeId

/-- Embedding of the context:list handler. -/
def handleContextList (st : MainState) : IpcResponse :=
  tryHandle st.registry.listOp .listData

/-- Embedding of the context:getActive handler. -/
def handleGetActive (st : MainState) : IpcResponse :=
  tryHandle st.registry.getActiveOp .activeData

/-- Embedding of the context:switch handler: call the registry's switch; on
success invoke the onContextSwitched callback (which reruns the rewiring pass
for the returned current context) and answer with the success envelope carrying
the requested context id; a thrown registry error is caught, the callback is
never reached, and the failure envelope is returned.  The third component is
the trace of rewiring steps the call performed. -/
def handleContextSwitch (st : MainState) (contextId : String)
    (connStatus : ConnStatus) (connectResult : Except String Unit) :
    IpcResponse × MainState × List WireOp :=
  match st.registry.switchContext contextId connStatus connectResult with
  | .ok (reg2, current) =>
    ({ success := true, data := some (.switchData contextId), error := none },
     { registry := reg2, wiring := wireFileWatcherEvents st.wiring current.id },
     wireOps st.wiring current.id)
  | .error e =>
    ({ success := false, data := none, error := some (errMessage e) }, st, [])

/-! ### Startup (initializeServices in the main part of App.tsx) -/

/-- The observable steps of service startup, in source order. -/
inductive StartupOp
  | newConnectionMgr
  | newRegistry
  | createLocalContext
  | registerLocal
  | startLocal
  | attachNotificationMgr
  | wire (op : WireOp)
  | newUpdaterSvc
  | registerIpcHandlers
  | subscribeSshForwarding
deriving DecidableEq

/-- The wiring state at module load: no listeners, no stored cleanups. -/
def startupWiring : WiringState :=
  { fileListeners := [], todoListeners := [], fileCleanup := none, todoCleanup := none }

/-- The step trace of initializeServices: create the connection manager and the
registry, create and register the local context, start it, attach the
notification manager to its watcher, run the initial rewiring pass for it,
create the updater, register the IPC handlers (only then can a switch request
be processed), and subscribe the SSH status forwarding. -/
def initServicesTrace : List StartupOp :=
  [.newConnectionMgr, .newRegistry, .createLocalContext, .registerLocal, .startLocal,
   .attachNotificationMgr] ++
  ((wireOps startupWiring "local").map .wire) ++
  [.newUpdaterSvc, .registerIpcHandlers, .subscribeSshForwarding]

/-- The main-process state initializeServices leaves behind: the registry holds
the reserved local context as the active one (registry construction modelled
from the spec), and the initial rewiring pass has run for it. -/
def initServices : MainState :=
  { registry := { contexts := [{ id := "local", type := .localCtx }], activeId := "local" },
    wiring := wireFileWatcherEvents startupWiring "local" }

/-- The channel constant SSH_STATUS (imported from the preload constants, which
are outside the provided sources; its exact value is immaterial). -/
def sshStatusChannel : String := "ssh:status"

/-- Embedding of the state-change subscription installed by initializeServices:
the closure captures only the main window reference, so it receives the module
state and the emitted status and, whenever the window is live, sends the status
value unchanged on the SSH status channel; the payload type is opaque to the
forwarder. -/
def sshStateChangeHandler {α : Type} (st : MainState) (windowLive : Bool)
    (status : α) : Option (String × α) :=
  if windowLive then some (sshStatusChannel, status) else none

/-! ### Auxiliary definitions for stating and instantiating the claims -/

/-- Generalisation of previewSpecE to a running command fallback, mirroring the
loop's accumulator: a fault still ends the scan with a throw, a non-command
preview wins outright; with no decisive event an already-recorded fallback
wins; otherwise the earliest preview. -/
def previewSpecEFB (evs : List (Except Unit MessagePreview))
    (fb : Option PreviewResult) : Except Unit (Option PreviewResult) :=
  match evs.find? decisiveEvent with
  | some (.error _) => .error ()
  | some (.ok p) => .ok (some ⟨p.text, p.timestamp⟩)
  | none =>
    match fb with
    | some f => .ok (some f)
    | none =>
      .ok ((eventPreviews evs).head?.map (fun p => (⟨p.text, p.timestamp⟩ : PreviewResult)))

/-- A concrete stand-in for JSON.parse on session lines, used to evaluate the
extraction on concrete inputs. -/
def parseStub : String → Option ParsedEntry := fun s =>
  if s = "userline" then
    some (.user { timestamp := some "2024-01-01T00:00:00Z",
                  message := some { content := .str "hello world" } })
  else none

/-- A concrete stand-in for JSON.parse under which one line parses to JSON
null (so the type-property access on it throws). -/
def parseStubNull : String → Option ParsedEntry := fun s =>
  if s = "nullline" then some .nullish else none

/-- A concrete stand-in for isCommandOutputContent. -/
def stubIsCmdOut : String → Bool := fun _ => false

/-- A concrete stand-in for sanitizeDisplayContent. -/
def stubSanitize : String → String := fun s => s

/-- A wiring state with the local context's listeners attached, as left behind
by the initial rewiring pass. -/
def localWiring : WiringState :=
  { fileListeners := ["local"], todoListeners := ["local"],
    fileCleanup := some "local", todoCleanup := some "local" }

/-- A main-process state with the local context active and a registered remote
context. -/
def remoteMain : MainState :=
  { registry := { contexts := [{ id := "local", type := .localCtx },
                               { id := "ssh-host1", type := .remoteCtx }],
                  activeId := "local" },
    wiring := localWiring }

/-- A main-process state with the remote context active and wired. -/
def remoteActive : MainState :=
  { registry := { contexts := [{ id := "local", type := .localCtx },
                               { id := "ssh-host1", type := .remoteCtx }],
                  activeId := "ssh-host1" },
    wiring := { fileListeners := ["ssh-host1"], todoListeners := ["ssh-host1"],
                fileCleanup := some "ssh-host1", todoCleanup := some "ssh-host1" } }


/-! ## Helper lemmas -/

theorem previewSpecEFB_none (evs : List (Except Unit MessagePreview)) :
    previewSpecEFB evs none = previewSpecE evs := by
  unfold previewSpecEFB previewSpecE
  cases h : evs.find? decisiveEvent with
  | none => rfl
  | some ev => cases ev <;> rfl

theorem previewSpecEFB_cons_command (p : MessagePreview)
    (evs : List (Except Unit MessagePreview)) (fb : Option PreviewResult)
    (h : p.isCommand = true) :
    previewSpecEFB (.ok p :: evs) fb =
      previewSpecEFB evs (if fb.isNone then some ⟨p.text, p.timestamp⟩ else fb) := by
  unfold previewSpecEFB
  rw [List.find?_cons_of_neg _ (by simp [decisiveEvent, h])]
  cases hf : evs.find? decisiveEvent with
  | none => cases fb <;> simp [eventPreviews]
  | some ev => cases ev <;> cases fb <;> rfl

theorem previewLoop_eq (P : String → Option ParsedEntry) (I : String → Bool)
    (S : String → String) (N : String) :
    ∀ (lines : List String) (n safe : Int) (fb : Option PreviewResult),
      previewLoop P I S N lines n safe fb =
        previewSpecEFB (eventsOf P I S N (lines.take (safe - n).toNat)) fb := by
  intro lines
  induction lines with
  | nil =>
    intro n safe fb
    simp only [previewLoop, eventsOf, List.take_nil, List.filterMap_nil]
    unfold previewSpecEFB
    cases fb <;> simp [eventPreviews]
  | cons line rest ih =>
    intro n safe fb
    by_cases hn : n ≥ safe
    · have h0 : (safe - n).toNat = 0 := by omega
      simp only [previewLoop, if_pos hn, h0, List.take_zero, eventsOf, List.filterMap_nil]
      unfold previewSpecEFB
      cases fb <;> simp [eventPreviews]
    · have h1 : (safe - n).toNat = (safe - (n + 1)).toNat + 1 := by omega
      rw [h1, List.take_succ_cons]
      have hstep : eventsOf P I S N (line :: List.take (safe - (n + 1)).toNat rest) =
          (match lineEvent P I S N line with
          | none => eventsOf P I S N (List.take (safe - (n + 1)).toNat rest)
          | some ev => ev :: eventsOf P I S N (List.take (safe - (n + 1)).toNat rest)) := by
        simp only [eventsOf, List.filterMap_cons]
        cases lineEvent P I S N line <;> rfl
      rw [hstep]
      simp only [previewLoop, if_neg hn]
      by_cases ht : jsTrim line = ""
      · have hl : lineEvent P I S N line = none := by
          simp [lineEvent, ht]
        simp only [ht, hl, if_true]
        rw [ih]
      · simp only [if_neg ht]
        cases hp : P (jsTrim line) with
        | none =>
          have hl : lineEvent P I S N line = none := by
            simp [lineEvent, ht, hp]
          simp only [hp, hl]
          rw [ih]
        | some pe =>
          cases pe with
          | nonUser =>
            have hl : lineEvent P I S N line = none := by
              simp [lineEvent, ht, hp]
            simp only [hp, hl]
            rw [ih]
          | nullish =>
            have hl : lineEvent P I S N line = some (.error ()) := by
              simp [lineEvent, ht, hp]
            simp only [hp, hl]
            unfold previewSpecEFB
            rw [List.find?_cons_of_pos _ (by simp [decisiveEvent])]
          | user e =>
            cases hx : extractPreviewFromUserEntry I S N e with
            | none =>
              have hl : lineEvent P I S N line = none := by
                simp [lineEvent, ht, hp, hx]
              simp only [hp, hl, hx]
              rw [ih]
            | some p =>
              have hl : lineEvent P I S N line = some (.ok p) := by
                simp [lineEvent, ht, hp, hx]
              simp only [hp, hl, hx]
              by_cases hc : p.isCommand
              · simp only [hc, Bool.not_true, if_neg (by simp : ¬(false = true))]
                rw [ih, previewSpecEFB_cons_command _ _ _ hc]
              · have hc2 : p.isCommand = false := by simpa using hc
                simp only [hc2, Bool.not_false, if_pos rfl]
                unfold previewSpecEFB
                rw [List.find?_cons_of_pos _ (by simp [decisiveEvent, hc2])]
                simp

theorem extractPreview_len (I : String → Bool) (S : String → String) (N : String)
    (e : UserEntry) (p : MessagePreview)
    (h : extractPreviewFromUserEntry I S N e = some p) (hc : p.isCommand = false) :
    jsLen p.text ≤ 500 := by
  unfold extractPreviewFromUserEntry at h
  rcases e with ⟨ts, msg⟩
  cases msg with
  | none => simp at h
  | some m =>
    rcases m with ⟨content⟩
    cases content with
    | str c =>
      simp only at h
      split at h
      · simp at h
      · split at h
        · injection h with h2
          subst h2
          simp at hc
        · split at h
          · simp at h
          · injection h with h2
            subst h2
            simp only [jsLen, jsSubstringTo, List.length_take]
            omega
    | arr blocks =>
      simp only at h
      split at h
      · simp at h
      · split at h
        · injection h with h2
          subst h2
          simp at hc
        · split at h
          · simp at h
          · injection h with h2
            subst h2
            simp only [jsLen, jsSubstringTo, List.length_take]
            omega

theorem wire_same_ctx (c : String) :
    wireFileWatcherEvents ⟨[c], [c], some c, some c⟩ c = ⟨[c], [c], some c, some c⟩ := by
  simp [wireFileWatcherEvents, wireOps, applyWireOp]

/-! ## Claims -/

/-- Claim C1: a failed boundary switch (unknown id or failed remote connection
attempt) leaves the main-process state exactly as it was — registry (hence
activeId) and event wiring unchanged — performs no rewiring step (the
onContextSwitched callback is never invoked), and returns a failure envelope
to the caller. -/
theorem c1_failed_switch_state (st : MainState) (contextId : String)
    (cs : ConnStatus) (cr : Except String Unit) (e : SwitchError)
    (h : st.registry.switchContext contextId cs cr = .error e) :
    (handleContextSwitch st contextId cs cr).1.success = false ∧
    (handleContextSwitch st contextId cs cr).1.error = some (errMessage e) ∧
    (handleContextSwitch st contextId cs cr).2.1 = st ∧
    (handleContextSwitch st contextId cs cr).2.2 = [] := by
  simp [handleContextSwitch, h]

/-- Witness for C1: a switch to the registered remote context whose connection
attempt fails leaves the concrete main state untouched with no rewiring step. -/
theorem c1_witness :
    (handleContextSwitch remoteMain "ssh-host1" .disconnected
        (.error "connection refused")).1.success = false ∧
    (handleContextSwitch remoteMain "ssh-host1" .disconnected
        (.error "connection refused")).1.error =
      some (errMessage (.connectionFailed "connection refused")) ∧
    (handleContextSwitch remoteMain "ssh-host1" .disconnected
        (.error "connection refused")).2.1 = remoteMain ∧
    (handleContextSwitch remoteMain "ssh-host1" .disconnected
        (.error "connection refused")).2.2 = [] :=
  c1_failed_switch_state remoteMain "ssh-host1" .disconnected
    (.error "connection refused") (.connectionFailed "connection refused") rfl

/-- Claim C2: in every rewiring pass from a well-formed wiring state (any
successful switch, and the initial wiring at startup from the empty state),
every intermediate state has all attached listeners belonging to a single
context — the outgoing context is fully detached before the incoming one is
attached — and the pass ends in a well-formed state again. -/
theorem c2_detach_before_attach (st : WiringState) (ctxId : String)
    (h : st.WellFormed) :
    (∀ n : Nat, oneContext (((wireOps st ctxId).take n).foldl applyWireOp st)) ∧
    (wireFileWatcherEvents st ctxId).WellFormed := by
  obtain ⟨hfl, htl, hcc⟩ := h
  obtain ⟨fl, tl, fc, tc⟩ := st
  simp only at hfl htl hcc
  subst hfl
  subst htl
  cases fc with
  | none =>
    cases tc with
    | none =>
      refine ⟨fun n => ?_, ?_⟩
      · rcases n with _ | _ | _ | _ | n <;>
          simp [wireOps, applyWireOp, attachedCtxs, oneContext, List.take]
      · simp [wireFileWatcherEvents, wireOps, applyWireOp, WiringState.WellFormed]
    | some b =>
      refine ⟨fun n => ?_, ?_⟩
      · rcases n with _ | _ | _ | _ | n <;>
          simp [wireOps, applyWireOp, attachedCtxs, oneContext, List.take]
      · simp [wireFileWatcherEvents, wireOps, applyWireOp, WiringState.WellFormed]
  | some a =>
    have hab : ∀ b, tc = some b → a = b := by
      intro b hb
      subst hb
      exact hcc a rfl b rfl
    cases tc with
    | none =>
      refine ⟨fun n => ?_, ?_⟩
      · rcases n with _ | _ | _ | _ | n <;>
          simp [wireOps, applyWireOp, attachedCtxs, oneContext, List.take]
      · simp [wireFileWatcherEvents, wireOps, applyWireOp, WiringState.WellFormed]
    | some b =>
      have hb : a = b := hab b rfl
      subst hb
      refine ⟨fun n => ?_, ?_⟩
      · rcases n with _ | _ | _ | _ | n <;>
          simp [wireOps, applyWireOp, attachedCtxs, oneContext, List.take]
      · simp [wireFileWatcherEvents, wireOps, applyWireOp, WiringState.WellFormed]

/-- Witness for C2: a rewiring pass from the local context's wiring to the
remote one keeps the listeners of a single context at the intermediate state
after two steps, and ends well-formed. -/
theorem c2_witness :
    oneContext (((wireOps localWiring "ssh-host1").take 2).foldl applyWireOp localWiring) ∧
    (wireFileWatcherEvents localWiring "ssh-host1").WellFormed :=
  ⟨(c2_detach_before_attach localWiring "ssh-host1"
      ⟨rfl, rfl, by intro a ha b hb; cases ha; cases hb; rfl⟩).1 2,
   (c2_detach_before_attach localWiring "ssh-host1"
      ⟨rfl, rfl, by intro a ha b hb; cases ha; cases hb; rfl⟩).2⟩

/-- Claim C3: each boundary operation answers with the uniform envelope — list
and getActive always succeed with their data, and switch either succeeds with
the requested context id as data or, when the registry-level switch fails,
returns the tagged failure envelope carrying that error's message; the handlers
are total functions into the envelope type, so no registry exception crosses
the boundary. -/
theorem c3_boundary_envelope (st : MainState) (contextId : String)
    (cs : ConnStatus) (cr : Except String Unit) :
    handleContextList st =
      { success := true, data := some (.listData st.registry.contexts), error := none } ∧
    handleGetActive st =
      { success := true, data := some (.activeData st.registry.activeId), error := none } ∧
    ((handleContextSwitch st contextId cs cr).1 =
        { success := true, data := some (.switchData contextId), error := none } ∨
      ∃ e, st.registry.switchContext contextId cs cr = .error e ∧
        (handleContextSwitch st contextId cs cr).1 =
          { success := false, data := none, error := some (errMessage e) }) := by
  refine ⟨rfl, rfl, ?_⟩
  cases h : st.registry.switchContext contextId cs cr with
  | ok v => left; simp [handleContextSwitch, h]
  | error e => right; exact ⟨e, rfl, by simp [handleContextSwitch, h]⟩

/-- Claim C4 counterexample: switching to the already-active context id
succeeds, but the rewiring callback still runs — the trace of the concrete
same-id switch is not empty and contains a detach of the active context's
file-change listener, refuting that no detach/re-attach of listeners occurs. -/
theorem c4_counterexample :
    (handleContextSwitch initServices "local" .disconnected (.ok ())).1.success = true ∧
    (handleContextSwitch initServices "local" .disconnected (.ok ())).2.2 ≠ [] ∧
    WireOp.offFile "local" ∈
      (handleContextSwitch initServices "local" .disconnected (.ok ())).2.2 := by
  decide

/-- Claim C4 (amended): a switch to the currently active id succeeds, leaves
the registry unchanged, and leaves the event wiring in the exact same state
(the same context's listeners attached), although the rewiring callback does
run a nonempty detach/re-attach pass over that context's listeners. -/
theorem c4_noop_switch (st : MainState) (targetId : String) (tgt : Ctx)
    (cs : ConnStatus) (cr : Except String Unit)
    (hfind : st.registry.contexts.find? (fun c => c.id = targetId) = some tgt)
    (hact : targetId = st.registry.activeId)
    (hwf : st.wiring = ⟨[targetId], [targetId], some targetId, some targetId⟩) :
    (handleContextSwitch st targetId cs cr).1 =
      { success := true, data := some (.switchData targetId), error := none } ∧
    (handleContextSwitch st targetId cs cr).2.1 = st ∧
    (handleContextSwitch st targetId cs cr).2.2 ≠ [] := by
  have hid : tgt.id = targetId := by
    have h2 := List.find?_some hfind
    simpa using h2
  have hsw : st.registry.switchContext targetId cs cr = .ok (st.registry, tgt) := by
    unfold Registry.switchContext
    rw [hfind]
    simp [hact]
  refine ⟨?_, ?_, ?_⟩
  · simp [handleContextSwitch, hsw]
  · simp only [handleContextSwitch, hsw]
    have hw : wireFileWatcherEvents st.wiring tgt.id = st.wiring := by
      rw [hwf, hid, wire_same_ctx]
    rw [hw]
  · simp [handleContextSwitch, hsw, wireOps, hwf]

/-- Witness for C4: the concrete same-id switch on the startup state succeeds
with registry and wiring unchanged while the rewiring pass is nonempty. -/
theorem c4_witness :
    (handleContextSwitch initServices "local" .disconnected (.ok ())).1 =
      { success := true, data := some (.switchData "local"), error := none } ∧
    (handleContextSwitch initServices "local" .disconnected (.ok ())).2.1 = initServices ∧
    (handleContextSwitch initServices "local" .disconnected (.ok ())).2.2 ≠ [] :=
  c4_noop_switch initServices "local" { id := "local", type := .localCtx }
    .disconnected (.ok ()) rfl rfl rfl

/-- Claim C6: service startup registers the reserved local context, starts its
watcher exactly once, and wires its file-change and todo-change events, in that
order, all before the IPC handlers (and with them the switch channel) are
registered; the resulting registry holds the local context as the active one. -/
theorem c6_startup_order :
    initServicesTrace.count .startLocal = 1 ∧
    StartupOp.registerLocal ∈ initServicesTrace ∧
    StartupOp.wire (.onFile "local") ∈ initServicesTrace ∧
    StartupOp.wire (.onTodo "local") ∈ initServicesTrace ∧
    initServicesTrace.indexOf .registerLocal < initServicesTrace.indexOf .startLocal ∧
    initServicesTrace.indexOf .startLocal <
      initServicesTrace.indexOf (.wire (.onFile "local")) ∧
    initServicesTrace.indexOf (.wire (.onFile "local")) <
      initServicesTrace.indexOf (.wire (.onTodo "local")) ∧
    initServicesTrace.indexOf (.wire (.onTodo "local")) <
      initServicesTrace.indexOf .registerIpcHandlers ∧
    { id := "local", type := .localCtx } ∈ initServices.registry.contexts ∧
    initServices.registry.activeId = "local" := by
  decide

/-- Claim C7: the state-change subscription forwards every emitted connection
status verbatim on the SSH status channel whenever the window is live, and its
result does not depend on the rest of the main-process state — in particular
not on which context is active or on any switch call. -/
theorem c7_ssh_status_forward {α : Type} (st st2 : MainState) (status : α)
    (live : Bool) (h : live = true) :
    sshStateChangeHandler st live status = some (sshStatusChannel, status) ∧
    sshStateChangeHandler st live status = sshStateChangeHandler st2 live status := by
  subst h
  exact ⟨rfl, rfl⟩

/-- Witness for C7: a concrete status value is forwarded unchanged both when
the local context is active and when the remote one is. -/
theorem c7_witness :
    sshStateChangeHandler initServices true (0 : Nat) = some (sshStatusChannel, 0) ∧
    sshStateChangeHandler initServices true (0 : Nat) =
      sshStateChangeHandler remoteActive true 0 :=
  c7_ssh_status_forward initServices remoteActive 0 true rfl

/-- Claim C8: the ranked injection list renders the injections in non-increasing
order of estimatedTokens (the rendered sequence is a permutation of the input,
pairwise non-increasing), and the caller's injections array is left unmodified
because the in-place sort runs on the spread copy. -/
theorem c8_ranked_injections (l : List ContextInjection) :
    ((rankedRender l).1).Pairwise
      (fun a b => b.estimatedTokens ≤ a.estimatedTokens) ∧
    List.Perm (rankedRender l).1 l ∧
    (rankedRender l).2 = l := by
  refine ⟨?_, ?_, rfl⟩
  · have h := @List.sorted_mergeSort ContextInjection injectionLe
      (fun a b c hab hbc => by
        simp only [injectionLe, decide_eq_true_eq] at hab hbc ⊢
        omega)
      (fun a b => by
        simp only [injectionLe, Bool.or_eq_true, decide_eq_true_eq]
        omega) l
    exact h.imp (fun hab => by simpa [injectionLe] using hab)
  · exact List.mergeSort_perm l injectionLe

/-- Claim C9 counterexample: on a one-line file whose line is the valid JSON
null, the claim as stated prescribes the null result (no user message occurs
within the budget), but the call faults instead: only JSON.parse is guarded per
line, the type-property access on the parsed null throws, and the function's
own catch rethrows it. -/
theorem c9_counterexample :
    extractFirstUserMessagePreview parseStubNull stubIsCmdOut stubSanitize "now"
        ["nullline"] 200 = .error () ∧
    extractFirstUserMessagePreview parseStubNull stubIsCmdOut stubSanitize "now"
        ["nullline"] 200 ≠ .ok none := by
  refine ⟨rfl, fun h => ?_⟩
  rw [show extractFirstUserMessagePreview parseStubNull stubIsCmdOut stubSanitize "now"
        ["nullline"] 200 = .error () from rfl] at h
  exact Except.noConfusion h

/-- Claim C9 (amended): extractFirstUserMessagePreview is determined by the
first max(1, maxLines) lines only; over that prefix, lines that are blank, fail
to parse as JSON, or yield no usable user preview are skipped; the first line
parsing to JSON null (if it precedes any non-command user message) makes the
call throw, since the property access on the parsed null is unguarded and the
function's catch rethrows; otherwise the result is the first non-command user
preview when one exists, else the earliest command preview, else null; and
every non-command preview text is truncated to at most 500 characters. -/
theorem c9_first_user_preview (P : String → Option ParsedEntry) (I : String → Bool)
    (S : String → String) (N : String) (lines : List String) (maxLines : Int) :
    extractFirstUserMessagePreview P I S N lines maxLines =
      previewSpecE (eventsOf P I S N (lines.take (max 1 maxLines).toNat)) ∧
    ∀ p ∈ previewsOf P I S N lines, p.isCommand = false → jsLen p.text ≤ 500 := by
  constructor
  · unfold extractFirstUserMessagePreview
    rw [previewLoop_eq, previewSpecEFB_none, Int.sub_zero]
  · intro p hp hc
    obtain ⟨line, hline, hsome⟩ := List.mem_filterMap.mp hp
    unfold linePreview at hsome
    by_cases ht : jsTrim line = ""
    · simp [ht] at hsome
    · simp only [if_neg ht] at hsome
      cases hP : P (jsTrim line) with
      | none => rw [hP] at hsome; simp at hsome
      | some pe =>
        cases pe with
        | nonUser => rw [hP] at hsome; simp at hsome
        | nullish => rw [hP] at hsome; simp at hsome
        | user e => rw [hP] at hsome; exact extractPreview_len I S N e p hsome hc

/-- Witness for C9: on a one-line file holding a plain user message the
extraction returns that message's preview, whose text is within the 500
character budget. -/
theorem c9_witness :
    extractFirstUserMessagePreview parseStub stubIsCmdOut stubSanitize "now"
        ["userline"] 200 =
      .ok (some { text := "hello world", timestamp := "2024-01-01T00:00:00Z" }) ∧
    jsLen "hello world" ≤ 500 := by
  constructor
  · rw [(c9_first_user_preview parseStub stubIsCmdOut stubSanitize "now"
        ["userline"] 200).1]
    rfl
  · exact (c9_first_user_preview parseStub stubIsCmdOut stubSanitize "now"
        ["userline"] 200).2
      { text := "hello world", timestamp := "2024-01-01T00:00:00Z", isCommand := false }
      (by decide) rfl

/-- Claim C10 counterexample: on a file whose first cwd-bearing entry has the
empty (falsy) cwd value, extractCwd skips that entry and returns the cwd of a
later entry, not the cwd of the first entry containing a cwd field. -/
theorem c10_counterexample :
    extractCwd (some [.entry (some ""), .entry (some "/a")]) = some "/a" ∧
    extractCwd (some [.entry (some ""), .entry (some "/a")]) ≠ some "" := by
  decide

/-- Claim C10 (amended): extractCwd never throws — it returns nothing for a
missing file, and otherwise scans lines in order until the first line that is
either malformed (the unguarded parse aborts the whole scan with the null
result) or an entry with a present, non-empty cwd (returned); entries whose
cwd is absent or empty are skipped. -/
theorem c10_extract_cwd (file : Option (List SessionLine)) :
    extractCwd file =
      match file with
      | none => none
      | some lines => cwdStopResult (lines.find? cwdStopper) := by
  cases file with
  | none => rfl
  | some lines =>
    induction lines with
    | nil => rfl
    | cons l rest ih =>
      cases l with
      | blank =>
        simp only [extractCwd, extractCwdLoop] at ih ⊢
        rw [List.find?_cons_of_neg _ (by simp [cwdStopper])]
        exact ih
      | malformed =>
        simp only [extractCwd, extractCwdLoop]
        rw [List.find?_cons_of_pos _ (by simp [cwdStopper])]
        rfl
      | entry cwd =>
        cases cwd with
        | none =>
          simp only [extractCwd, extractCwdLoop] at ih ⊢
          rw [List.find?_cons_of_neg _ (by simp [cwdStopper])]
          exact ih
        | some c =>
          by_cases hc : c = ""
          · subst hc
            simp only [extractCwd, extractCwdLoop] at ih ⊢
            rw [List.find?_cons_of_neg _ (by simp [cwdStopper])]
            simpa using ih
          · simp only [extractCwd, extractCwdLoop]
            rw [List.find?_cons_of_pos _ (by simp [cwdStopper, hc])]
            simp [hc, cwdStopResult]

end ClaudeDevtools
